import Mathlib

/-!
# FileSyncGo, package `networking`: a shallow embedding and its properties

The Go package `helper/networking` holds a TCP server with a registry of live
connections, a TCP client, a hash that names a connection, and a JSON send
helper.  This file translates those functions into Lean and proves (or refutes
at a concrete input) the statements made about them.

Conventions of the embedding:

* Go's `int` is the 64-bit two's-complement integer.  It is represented by a
  Lean `Int`; every arithmetic operation that can overflow is followed by
  `wrapInt64`.
* A Go `string` is represented by a Lean `String`, that is, by the sequence of
  code points that `for _, char := range s` visits; strings that are not valid
  UTF-8 are outside the model.
* A value of the interface type `net.Conn` is an `Option Conn`, `none` being
  the `nil` interface.  A method call on `nil` is a run-time panic.
* A value of the interface type `error` is an `Option GoError`.
* `map[net.Conn]int` is an association list; the order of the list is the
  order in which `range` visits the entries (which Go leaves unspecified, so
  statements are made for every order).
* A `sync.Mutex` critical section is one atomic function on the state.
* Calls into the operating system (`Read`, `Write`, `Close`, `net.Dial`,
  `net.LookupHost`, `net.ParseIP`, `json.Marshal`) take their results from
  explicit parameters and are recorded in a list of `Event`s.  Diagnostic
  printing is not modelled.
-/

namespace networking

/-! ## Data model -/

/-- Byte slices. -/
abbrev Bytes := List UInt8

/-- A connection object (a non-nil `net.Conn`): `handle` tells two objects
apart, the two strings are what `LocalAddr().String()` and
`RemoteAddr().String()` return. -/
structure Conn where
  handle : Nat
  localAddr : String
  remoteAddr : String
deriving DecidableEq, Repr

/-- A value of interface type `net.Conn`; `none` is `nil`. -/
abbrev NetConn := Option Conn

/-- Non-nil values of Go's `error` interface that occur in this package:
errors handed back by the library, and `fmt.Errorf(format, err)` with one `%w`
verb, whose operand `err` may itself be nil. -/
inductive GoError where
  | lib (msg : String)
  | wrapNil (format : String)
  | wrap (format : String) (cause : GoError)
deriving DecidableEq, Repr

/-- A value of interface type `error`; `none` is `nil`. -/
abbrev error := Option GoError

/-- The call `fmt.Errorf(format, err)`: always a non-nil error. -/
def Errorf (format : String) (err : error) : GoError :=
  match err with
  | none => GoError.wrapNil format
  | some e => GoError.wrap format e

/-- How a call ends: it returns, it panics (nil dereference), or it never
returns because it waits for a read that does not come. -/
inductive Outcome (α : Type) where
  | ret (a : α)
  | panic
  | blocked
deriving DecidableEq, Repr

/-- Calls on the outside world that the claims count. -/
inductive Event where
  | close (c : Conn)
  | write (c : Conn) (data : Bytes)
  | lookupHost (host : String)
  | dial (network : String) (address : String)
deriving DecidableEq, Repr

/-! ## Machine integers -/

/-- Least value of a 64-bit `int`. -/
def minInt64 : Int := -9223372036854775808

/-- Reduction of a mathematical integer to the 64-bit two's-complement value
with the same low 64 bits. -/
def wrapInt64 (x : Int) : Int :=
  (x + 9223372036854775808) % 18446744073709551616 - 9223372036854775808

/-- Source: `func abs(n int) int`.  The negation is a machine negation. -/
def abs (n : Int) : Int :=
  if n < 0 then wrapInt64 (-n) else n

/-! ## Identity function -/

/-- Body of the loop in `GetSocketID`:
`hash = ((hash << 5) + hash) + int(char)`. -/
def GetSocketID.step (hash : Int) (char : Char) : Int :=
  wrapInt64 (wrapInt64 (wrapInt64 (hash * 32) + hash) + (char.toNat : Int))

/-- Source: `func GetSocketID(conn net.Conn) int`.  The operator `%` of Go is
the truncated remainder `Int.tmod`. -/
def GetSocketID (conn : NetConn) : Int :=
  match conn with
  | none => 0
  | some c =>
    let localAddr := c.localAddr
    let remoteAddr := c.remoteAddr
    let combined := localAddr ++ "_" ++ remoteAddr
    let hash := combined.toList.foldl GetSocketID.step 5381
    Int.tmod (abs hash) 1000000

/-- The rolling hash in the words of the specification, over the mathematical
integers: seed 5381, update `hash = hash*33 + charCode`. -/
def rollingHash (cs : List Char) : Int :=
  cs.foldl (fun hash c => hash * 33 + (c.toNat : Int)) 5381

/-- The identifier as the specification words it: the rolling hash of the
local address followed directly by the remote address, folded to non-negative
and reduced modulo one million. -/
def specSocketID (localAddr remoteAddr : String) : Int :=
  ((rollingHash (localAddr ++ remoteAddr).toList).natAbs : Int) % 1000000

/-- The same reading carried out in 64-bit machine arithmetic. -/
def specSocketID64 (localAddr remoteAddr : String) : Int :=
  Int.tmod (abs (wrapInt64 (rollingHash (localAddr ++ remoteAddr).toList))) 1000000

/-- A loopback connection of the server on port 8080. -/
def loopbackConn : Conn :=
  ⟨1, "127.0.0.1:8080", "127.0.0.1:51234"⟩

/-- A TCP connection between two IPv4 end points whose hash is exactly
`minInt64`. -/
def minHashConn : Conn :=
  ⟨2, "157.116.157.134:15547", "125.112.123.185:14645"⟩

/-! ## Registry and server -/

/-- The type `map[net.Conn]int`.  A key occurs at most once in a well-formed
map; `range` visits the entries in list order. -/
abbrev ConnMap := List (NetConn × Int)

/-- The keys of a map, in iteration order. -/
def mapKeys (m : ConnMap) : List NetConn :=
  m.map Prod.fst

/-- The assignment `m[k] = v`: overwrites the entry of `k` or adds one. -/
def mapAssign : ConnMap → NetConn → Int → ConnMap
  | [], k, v => [(k, v)]
  | e :: rest, k, v => if e.1 = k then (k, v) :: rest else e :: mapAssign rest k v

/-- The builtin `delete(m, k)`: no entry of `k` remains; a no-op when there is
none. -/
def mapDelete (m : ConnMap) (k : NetConn) : ConnMap :=
  m.filter (fun e => decide (e.1 ≠ k))

/-- Source: `type AsyncTcpServer struct`.  The mutex has no state of its own
here: each critical section is one function. -/
structure AsyncTcpServer where
  Address : String
  Port : Int
  allSockets : ConnMap
deriving DecidableEq, Repr

/-- Source: `func NewAsyncTcpServer(address string, port int) *AsyncTcpServer`. -/
def NewAsyncTcpServer (address : String) (port : Int) : AsyncTcpServer :=
  { Address := address, Port := port, allSockets := [] }

/-- Source: `func (server *AsyncTcpServer) GetConnections() map[net.Conn]int`.
Returns the map and the server state after the call. -/
def AsyncTcpServer.GetConnections (server : AsyncTcpServer) : ConnMap × AsyncTcpServer :=
  (server.allSockets, server)

/-- The `for conn, id := range server.allSockets` loop of `GetConnection`. -/
def AsyncTcpServer.GetConnection.loop : ConnMap → Int → NetConn
  | [], _ => none
  | (conn, id) :: rest, socketID =>
    if id = socketID then conn else AsyncTcpServer.GetConnection.loop rest socketID

/-- Source: `func (server *AsyncTcpServer) GetConnection(socketID int) net.Conn`.
Returns the handle and the server state after the call. -/
def AsyncTcpServer.GetConnection (server : AsyncTcpServer) (socketID : Int) :
    NetConn × AsyncTcpServer :=
  (AsyncTcpServer.GetConnection.loop server.allSockets socketID, server)

/-- The result of one `conn.Read(data)`: the bytes `data[:n]` and the error. -/
abbrev ReadResult := Bytes × error

/-- First critical section of `handleConnection`:
`socketID := GetSocketID(conn); server.allSockets[conn] = socketID`. -/
def AsyncTcpServer.handleConnection.register (server : AsyncTcpServer) (c : Conn) :
    AsyncTcpServer :=
  let socketID := GetSocketID (some c)
  { server with allSockets := mapAssign server.allSockets (some c) socketID }

/-- The read loop of `handleConnection`, run on the results of the successive
reads: the messages received before the first failing read, or `none` when no
read fails (the task then stays in the loop). -/
def AsyncTcpServer.handleConnection.readLoop : List ReadResult → Option (List Bytes)
  | [] => none
  | (data, err) :: rest =>
    match err with
    | some _ => some []
    | none =>
      match AsyncTcpServer.handleConnection.readLoop rest with
      | none => none
      | some msgs => some (data :: msgs)

/-- Second critical section of `handleConnection`:
`delete(server.allSockets, conn)`. -/
def AsyncTcpServer.handleConnection.deregister (server : AsyncTcpServer) (c : Conn) :
    AsyncTcpServer :=
  { server with allSockets := mapDelete server.allSockets (some c) }

/-- What `handleConnection` does once a read has failed: the second critical
section, then the deferred `conn.Close()`. -/
def AsyncTcpServer.handleConnection.finish (server : AsyncTcpServer) (c : Conn) :
    AsyncTcpServer × List Event :=
  (AsyncTcpServer.handleConnection.deregister server c, [Event.close c])

/-- Source: `func (server *AsyncTcpServer) handleConnection(conn net.Conn)`, run
without interference from other tasks.  A nil `conn` panics at the first method
call; the deferred `conn.Close()` runs when the function returns. -/
def AsyncTcpServer.handleConnection (server : AsyncTcpServer) (conn : NetConn)
    (reads : List ReadResult) : Outcome (AsyncTcpServer × List Event) :=
  match conn with
  | none => Outcome.panic
  | some c =>
    let server1 := AsyncTcpServer.handleConnection.register server c
    match AsyncTcpServer.handleConnection.readLoop reads with
    | none => Outcome.blocked
    | some _ => Outcome.ret (AsyncTcpServer.handleConnection.finish server1 c)

/-- The `for conn := range server.allSockets` loop of `Close`: one
`conn.Close()` per entry; a nil key panics. -/
def AsyncTcpServer.Close.loop : ConnMap → Outcome (List Event)
  | [] => Outcome.ret []
  | (conn, _) :: rest =>
    match conn with
    | none => Outcome.panic
    | some c =>
      match AsyncTcpServer.Close.loop rest with
      | Outcome.ret evs => Outcome.ret (Event.close c :: evs)
      | Outcome.panic => Outcome.panic
      | Outcome.blocked => Outcome.blocked

/-- Source: `func (server *AsyncTcpServer) Close()`. -/
def AsyncTcpServer.Close (server : AsyncTcpServer) : Outcome (AsyncTcpServer × List Event) :=
  match AsyncTcpServer.Close.loop server.allSockets with
  | Outcome.ret evs => Outcome.ret ({ server with allSockets := [] }, evs)
  | Outcome.panic => Outcome.panic
  | Outcome.blocked => Outcome.blocked

/-! ## Client and JSON helper -/

/-- Results of the library calls made by the client and by the send helper.
`parseIP s` tells whether `net.ParseIP(s)` is non-nil; `lookupHost`, `dial`,
`write` and `read` return what `net.LookupHost`, `net.Dial`, `conn.Write` and
`conn.Read` (into a buffer of the given size) return. -/
structure Env where
  parseIP : String → Bool
  lookupHost : String → List String × error
  dial : String → String → NetConn × error
  write : Conn → Bytes → Int × error
  read : Conn → Nat → Bytes × error

/-- Source: `type AsyncTcpClient struct`. -/
structure AsyncTcpClient where
  Address : String
  Port : Int
  conn : NetConn
deriving DecidableEq, Repr

/-- Source: `func NewAsyncTcpClient(address string, port int) *AsyncTcpClient`. -/
def NewAsyncTcpClient (address : String) (port : Int) : AsyncTcpClient :=
  { Address := address, Port := port, conn := none }

/-- The call `fmt.Sprintf("%s:%d", address, port)`. -/
def hostPort (address : String) (port : Int) : String :=
  address ++ ":" ++ toString port

/-- Second half of `Connect`: format the address, dial, store the handle on
success.  `evs` are the library calls made so far. -/
def AsyncTcpClient.Connect.dialStep (client : AsyncTcpClient) (env : Env) (evs : List Event) :
    AsyncTcpClient × error × List Event :=
  let address := hostPort client.Address client.Port
  match env.dial "tcp" address with
  | (_, some err) =>
    (client, some (Errorf "error connecting to server: %w" (some err)),
      evs ++ [Event.dial "tcp" address])
  | (conn, none) =>
    ({ client with conn := conn }, none, evs ++ [Event.dial "tcp" address])

/-- Source: `func (client *AsyncTcpClient) Connect() error`.  Returns the
client after the call, the error, and the library calls made.  The test
`err != nil || len(ips) == 0` fails exactly when `err` is nil and `ips` has a
first element. -/
def AsyncTcpClient.Connect (client : AsyncTcpClient) (env : Env) :
    AsyncTcpClient × error × List Event :=
  if env.parseIP client.Address = false then
    match env.lookupHost client.Address with
    | (ip :: _, none) =>
      AsyncTcpClient.Connect.dialStep { client with Address := ip } env
        [Event.lookupHost client.Address]
    | (_, err) =>
      (client, some (Errorf "DNS resolution error: %w" err), [Event.lookupHost client.Address])
  else
    AsyncTcpClient.Connect.dialStep client env []

/-- Source: `func (client *AsyncTcpClient) GetConnection() net.Conn`. -/
def AsyncTcpClient.GetConnection (client : AsyncTcpClient) : NetConn :=
  client.conn

/-- Source: `func (client *AsyncTcpClient) Close()`.  The stored handle is kept. -/
def AsyncTcpClient.Close (client : AsyncTcpClient) : AsyncTcpClient × List Event :=
  match client.conn with
  | some c => (client, [Event.close c])
  | none => (client, [])

/-- Source: `func (client *AsyncTcpClient) Send(data []byte) error`.  There is
no test of `client.conn`: the method call on a nil handle panics. -/
def AsyncTcpClient.Send (client : AsyncTcpClient) (data : Bytes) (env : Env) :
    Outcome (error × List Event) :=
  match client.conn with
  | none => Outcome.panic
  | some c => Outcome.ret ((env.write c data).2, [Event.write c data])

/-- Source: `func (client *AsyncTcpClient) Receive() ([]byte, error)`. -/
def AsyncTcpClient.Receive (client : AsyncTcpClient) (env : Env) : Outcome (Bytes × error) :=
  match client.conn with
  | none => Outcome.panic
  | some c =>
    match env.read c 1024 with
    | (_, some err) => Outcome.ret ([], some err)
    | (data, none) => Outcome.ret (data, none)

/-- Source: `func SendJSON(conn net.Conn, data interface{}) error`.  `marshal`
is `json.Marshal` on the values of type `α`. -/
def SendJSON {α : Type} (marshal : α → Bytes × error) (env : Env) (conn : NetConn) (data : α) :
    Outcome (error × List Event) :=
  match marshal data with
  | (_, some err) => Outcome.ret (some (Errorf "error marshaling JSON: %w" (some err)), [])
  | (jsonBytes, none) =>
    match conn with
    | none => Outcome.panic
    | some c => Outcome.ret ((env.write c jsonBytes).2, [Event.write c jsonBytes])

/-- The writes among a list of library calls. -/
def writesOf (evs : List Event) : List (Conn × Bytes) :=
  evs.filterMap fun ev =>
    match ev with
    | Event.write c data => some (c, data)
    | _ => none

/-- The dial attempts among a list of library calls. -/
def dialsOf (evs : List Event) : List String :=
  evs.filterMap fun ev =>
    match ev with
    | Event.dial _ address => some address
    | _ => none

/-- The hostname lookups among a list of library calls. -/
def lookupsOf (evs : List Event) : List String :=
  evs.filterMap fun ev =>
    match ev with
    | Event.lookupHost host => some host
    | _ => none

/-- The handles closed by a list of library calls, in order. -/
def closedBy (evs : List Event) : List Conn :=
  evs.filterMap fun ev =>
    match ev with
    | Event.close c => some c
    | _ => none

/-! ## Executions of the owners' operations -/

/-- State of a server and a client together with the log of the handles on
which `Close` has been invoked, oldest first. -/
structure System where
  server : AsyncTcpServer
  client : AsyncTcpClient
  closed : List Conn
deriving DecidableEq, Repr

/-- The atomic steps of the owners of connections.  A handling task takes two
steps, between which other steps may occur: `handlerStart` is its first
critical section, `handlerExit` is everything after its failing read. -/
inductive Op where
  | handlerStart (c : Conn)
  | handlerExit (c : Conn)
  | serverClose
  | clientClose
deriving DecidableEq, Repr

/-- One step of an execution. -/
def System.step (sys : System) : Op → Outcome System
  | Op.handlerStart c =>
    Outcome.ret { sys with server := AsyncTcpServer.handleConnection.register sys.server c }
  | Op.handlerExit c =>
    Outcome.ret { sys with
      server := (AsyncTcpServer.handleConnection.finish sys.server c).1
      closed := sys.closed ++ closedBy (AsyncTcpServer.handleConnection.finish sys.server c).2 }
  | Op.serverClose =>
    match sys.server.Close with
    | Outcome.ret (server, evs) =>
      Outcome.ret { sys with server := server, closed := sys.closed ++ closedBy evs }
    | Outcome.panic => Outcome.panic
    | Outcome.blocked => Outcome.blocked
  | Op.clientClose =>
    Outcome.ret { sys with
      client := sys.client.Close.1
      closed := sys.closed ++ closedBy sys.client.Close.2 }

/-- An execution: the steps are taken one after the other. -/
def System.run : System → List Op → Outcome System
  | sys, [] => Outcome.ret sys
  | sys, op :: ops =>
    match sys.step op with
    | Outcome.ret next => System.run next ops
    | Outcome.panic => Outcome.panic
    | Outcome.blocked => Outcome.blocked

/-- The connections whose handling task exits during an execution. -/
def exitsOf (ops : List Op) : List Conn :=
  ops.filterMap fun op =>
    match op with
    | Op.handlerExit c => some c
    | _ => none

/-- The client side of the loopback connection. -/
def clientSideConn : Conn :=
  ⟨3, "127.0.0.1:51234", "127.0.0.1:8080"⟩

/-- The handles closed, in order, by the steps of an execution in which every
`serverClose` finds the registry empty (and so closes nothing), for a client
whose stored handle is `stored`. -/
def closesOf (stored : NetConn) : List Op → List Conn
  | [] => []
  | Op.handlerExit c :: ops => c :: closesOf stored ops
  | Op.clientClose :: ops => stored.toList ++ closesOf stored ops
  | _ :: ops => closesOf stored ops

/-- Decision procedure used in the examples: tells whether every `serverClose`
step of the execution of `ops` from `sys` is taken in a state whose registry
is empty. -/
def serverCloseFindsEmpty : System → List Op → Bool
  | _, [] => true
  | sys, op :: ops =>
    (decide (op ≠ Op.serverClose) || decide (sys.server.allSockets = []))
      && match sys.step op with
        | Outcome.ret next => serverCloseFindsEmpty next ops
        | _ => true

/-- Library results used in the examples: `example.com` resolves to one
address, the loopback address and that address are numeric, only the loopback
server accepts connections, every write is complete and every read fails. -/
def exampleEnv : Env where
  parseIP := fun s => s == "127.0.0.1" || s == "93.184.216.34"
  lookupHost := fun host =>
    if host = "example.com" then (["93.184.216.34"], none)
    else ([], some (GoError.lib "no such host"))
  dial := fun _ address =>
    if address = "127.0.0.1:8080" then (some clientSideConn, none)
    else (none, some (GoError.lib "connection refused"))
  write := fun _ data => ((data.length : Int), none)
  read := fun _ _ => ([], some (GoError.lib "EOF"))

/-- A serializer used in the examples: `some bytes` serializes to `bytes`,
`none` stands for a value that `json.Marshal` rejects. -/
def exampleMarshal (v : Option Bytes) : Bytes × error :=
  match v with
  | some bytes => (bytes, none)
  | none => ([], some (GoError.lib "json: unsupported type"))

/-! ## Identity function: lemmas -/

theorem wrapInt64_step (H : Int) (c : Char) :
    GetSocketID.step (wrapInt64 H) c = wrapInt64 (H * 33 + (c.toNat : Int)) := by
  unfold GetSocketID.step wrapInt64
  omega

theorem foldl_step_eq_wrap (cs : List Char) (H : Int) :
    cs.foldl GetSocketID.step (wrapInt64 H)
      = wrapInt64 (cs.foldl (fun hash c => hash * 33 + (c.toNat : Int)) H) := by
  induction cs generalizing H with
  | nil => rfl
  | cons c cs ih =>
    simp only [List.foldl_cons]
    rw [wrapInt64_step, ih]

theorem hash_eq_wrap_rollingHash (cs : List Char) :
    cs.foldl GetSocketID.step 5381 = wrapInt64 (rollingHash cs) := by
  have h : (5381 : Int) = wrapInt64 5381 := by decide
  rw [h, foldl_step_eq_wrap]
  rfl

theorem wrapInt64_ge (x : Int) : minInt64 ≤ wrapInt64 x := by
  unfold wrapInt64 minInt64
  omega

theorem abs_eq_natAbs (n : Int) (hlo : minInt64 ≤ n) (hne : n ≠ minInt64)
    (hhi : n < 9223372036854775808) : abs n = (n.natAbs : Int) := by
  unfold abs wrapInt64
  unfold minInt64 at hlo hne
  split <;> omega

theorem wrapInt64_lt (x : Int) : wrapInt64 x < 9223372036854775808 := by
  unfold wrapInt64
  omega

/-! ## Identity function: claims -/

/-- C1 (code evaluated at the failing input). For the TCP connection with local
address 157.116.157.134:15547 and remote address 125.112.123.185:14645 the hash
is the least 64-bit integer, `abs` returns it unchanged, and `GetSocketID`
returns -775808, which is not in the range from 0 to 999999. -/
theorem GetSocketID_minHashConn :
    (minHashConn.localAddr ++ "_" ++ minHashConn.remoteAddr).toList.foldl
        GetSocketID.step 5381 = minInt64
      ∧ abs minInt64 = minInt64
      ∧ GetSocketID (some minHashConn) = -775808
      ∧ ¬ (0 ≤ GetSocketID (some minHashConn)
            ∧ GetSocketID (some minHashConn) < 1000000) := by
  simp [GetSocketID, GetSocketID.step, wrapInt64, abs, minInt64, minHashConn,
    String.toList]
  decide

/-- C2 (counterexample). For the loopback connection 127.0.0.1:8080 /
127.0.0.1:51234 the code returns 359983, while the rolling hash of the two
address strings joined without a separator gives another number, both over the
mathematical integers and in 64-bit arithmetic. -/
theorem GetSocketID_ne_specSocketID :
    GetSocketID (some loopbackConn) = 359983
      ∧ GetSocketID (some loopbackConn)
          ≠ specSocketID loopbackConn.localAddr loopbackConn.remoteAddr
      ∧ GetSocketID (some loopbackConn)
          ≠ specSocketID64 loopbackConn.localAddr loopbackConn.remoteAddr := by
  simp [GetSocketID, GetSocketID.step, wrapInt64, abs, loopbackConn,
    String.toList, specSocketID, specSocketID64, rollingHash]
  decide

/-- C2 (amended). For every connection whose 64-bit hash is not the least
64-bit integer, `GetSocketID` returns the rolling hash (seed 5381, update
hash*33 + code, taken modulo 2^64 as a signed 64-bit value) of local address,
then the separator "_", then remote address, folded to its absolute value and
reduced modulo 1000000. -/
theorem GetSocketID_eq_rollingHash (c : Conn)
    (h : wrapInt64 (rollingHash (c.localAddr ++ "_" ++ c.remoteAddr).toList) ≠ minInt64) :
    GetSocketID (some c)
      = ((wrapInt64 (rollingHash (c.localAddr ++ "_" ++ c.remoteAddr).toList)).natAbs : Int)
          % 1000000 := by
  simp only [GetSocketID]
  rw [hash_eq_wrap_rollingHash, abs_eq_natAbs _ (wrapInt64_ge _) h (wrapInt64_lt _)]
  exact Int.tmod_eq_emod (Int.ofNat_nonneg _) (by decide)

/-- C2 (witness of the amended statement) at the loopback connection. -/
theorem GetSocketID_eq_rollingHash_witness :
    wrapInt64 (rollingHash (loopbackConn.localAddr ++ "_" ++ loopbackConn.remoteAddr).toList)
        ≠ minInt64
      ∧ GetSocketID (some loopbackConn)
          = ((wrapInt64 (rollingHash
              (loopbackConn.localAddr ++ "_" ++ loopbackConn.remoteAddr).toList)).natAbs : Int)
            % 1000000 :=
  ⟨by simp [wrapInt64, rollingHash, loopbackConn, minInt64, String.toList],
   GetSocketID_eq_rollingHash loopbackConn
     (by simp [wrapInt64, rollingHash, loopbackConn, minInt64, String.toList])⟩

/-! ## Registry and server: lemmas -/

theorem mem_mapDelete (m : ConnMap) (k : NetConn) (e : NetConn × Int) :
    e ∈ mapDelete m k ↔ e ∈ m ∧ e.1 ≠ k := by
  simp [mapDelete, List.mem_filter]

theorem mapDelete_mapAssign (m : ConnMap) (k : NetConn) (v : Int) :
    mapDelete (mapAssign m k v) k = mapDelete m k := by
  induction m with
  | nil => simp [mapAssign, mapDelete]
  | cons e rest ih =>
    unfold mapAssign
    by_cases h : e.1 = k
    · simp [mapDelete, h]
    · simp only [h, if_false]
      unfold mapDelete at ih ⊢
      rw [List.filter_cons, List.filter_cons, ih]

theorem loop_eq_none_iff (m : ConnMap) (socketID : Int)
    (hkeys : ∀ e ∈ m, e.1 ≠ none) :
    AsyncTcpServer.GetConnection.loop m socketID = none ↔ ∀ e ∈ m, e.2 ≠ socketID := by
  induction m with
  | nil => simp [AsyncTcpServer.GetConnection.loop]
  | cons e rest ih =>
    obtain ⟨conn, id⟩ := e
    have hrest : ∀ e ∈ rest, e.1 ≠ none := fun e he => hkeys e (List.mem_cons_of_mem _ he)
    have hconn : conn ≠ none := hkeys (conn, id) (List.mem_cons_self _ _)
    unfold AsyncTcpServer.GetConnection.loop
    by_cases h : id = socketID
    · simp [h, hconn]
    · simp [h, ih hrest]

theorem loop_none_of_no_match (m : ConnMap) (socketID : Int)
    (h : ∀ e ∈ m, e.2 ≠ socketID) :
    AsyncTcpServer.GetConnection.loop m socketID = none := by
  induction m with
  | nil => rfl
  | cons e rest ih =>
    obtain ⟨conn, id⟩ := e
    have hid : id ≠ socketID := h (conn, id) (List.mem_cons_self _ _)
    unfold AsyncTcpServer.GetConnection.loop
    simp only [hid, if_false]
    exact ih (fun e he => h e (List.mem_cons_of_mem _ he))

theorem loop_mem (m : ConnMap) (socketID : Int) (c : Conn)
    (h : AsyncTcpServer.GetConnection.loop m socketID = some c) :
    (some c, socketID) ∈ m := by
  induction m with
  | nil => simp [AsyncTcpServer.GetConnection.loop] at h
  | cons e rest ih =>
    obtain ⟨conn, id⟩ := e
    unfold AsyncTcpServer.GetConnection.loop at h
    by_cases hid : id = socketID
    · simp only [hid, if_true] at h
      subst hid
      subst h
      exact List.mem_cons_self _ _
    · simp only [hid, if_false] at h
      exact List.mem_cons_of_mem _ (ih h)

theorem readLoop_isSome (reads : List ReadResult) (h : ∃ r ∈ reads, r.2 ≠ none) :
    ∃ msgs, AsyncTcpServer.handleConnection.readLoop reads = some msgs := by
  induction reads with
  | nil => simp at h
  | cons r rest ih =>
    obtain ⟨data, err⟩ := r
    unfold AsyncTcpServer.handleConnection.readLoop
    cases err with
    | some e => exact ⟨[], rfl⟩
    | none =>
      have hrest : ∃ r ∈ rest, r.2 ≠ none := by
        obtain ⟨r, hr, hne⟩ := h
        rcases List.mem_cons.mp hr with rfl | hr
        · exact absurd rfl hne
        · exact ⟨r, hr, hne⟩
      obtain ⟨msgs, hm⟩ := ih hrest
      exact ⟨data :: msgs, by simp [hm]⟩

theorem closeLoop_ret (m : ConnMap) (hkeys : ∀ e ∈ m, e.1 ≠ none) :
    ∃ evs, AsyncTcpServer.Close.loop m = Outcome.ret evs
      ∧ (∀ ev ∈ evs, ∃ c, ev = Event.close c ∧ some c ∈ mapKeys m)
      ∧ (∀ c, some c ∈ mapKeys m → Event.close c ∈ evs)
      ∧ evs.length = m.length := by
  induction m with
  | nil => exact ⟨[], rfl, by simp, by simp [mapKeys], rfl⟩
  | cons e rest ih =>
    obtain ⟨conn, id⟩ := e
    have hrest : ∀ e ∈ rest, e.1 ≠ none := fun e he => hkeys e (List.mem_cons_of_mem _ he)
    have hconn : conn ≠ none := hkeys (conn, id) (List.mem_cons_self _ _)
    obtain ⟨evs, hevs, hsub, hsup, hlen⟩ := ih hrest
    cases conn with
    | none => exact absurd rfl hconn
    | some c =>
      refine ⟨Event.close c :: evs, by simp [AsyncTcpServer.Close.loop, hevs], ?_, ?_, ?_⟩
      · intro ev hev
        rcases List.mem_cons.mp hev with rfl | hev
        · exact ⟨c, rfl, by simp [mapKeys]⟩
        · obtain ⟨d, hd, hmem⟩ := hsub ev hev
          exact ⟨d, hd, by simp only [mapKeys, List.map_cons] at hmem ⊢
                           exact List.mem_cons_of_mem _ hmem⟩
      · intro d hd
        simp only [mapKeys, List.map_cons, List.mem_cons] at hd
        rcases hd with hd | hd
        · have : d = c := by simpa using hd
          subst this
          exact List.mem_cons_self _ _
        · exact List.mem_cons_of_mem _ (hsup d hd)
      · simp [hlen]

/-! ## Registry and server: claims -/

/-- C3. For every registry whose keys are non-nil handles and every id,
`GetConnection(id)` leaves the server unchanged, returns nil exactly when no
entry has identifier id, and when it returns a handle, that handle is
registered with stored identifier id. -/
theorem GetConnection_spec (server : AsyncTcpServer) (socketID : Int)
    (hkeys : ∀ e ∈ server.allSockets, e.1 ≠ none) :
    (server.GetConnection socketID).2 = server
      ∧ ((server.GetConnection socketID).1 = none
          ↔ ∀ e ∈ server.allSockets, e.2 ≠ socketID)
      ∧ (∀ c, (server.GetConnection socketID).1 = some c
          → (some c, socketID) ∈ server.allSockets) :=
  ⟨rfl, loop_eq_none_iff server.allSockets socketID hkeys,
   fun c h => loop_mem server.allSockets socketID c h⟩

/-- C3 (witness): a registry with two loopback connections, looked up by the
identifier of the first. -/
theorem GetConnection_spec_witness :
    (∀ e ∈ (AsyncTcpServer.mk "0.0.0.0" 8080
        [(some loopbackConn, 359983), (some minHashConn, -775808)]).allSockets, e.1 ≠ none)
      ∧ ((AsyncTcpServer.mk "0.0.0.0" 8080
            [(some loopbackConn, 359983), (some minHashConn, -775808)]).GetConnection 359983).2
          = AsyncTcpServer.mk "0.0.0.0" 8080
              [(some loopbackConn, 359983), (some minHashConn, -775808)]
      ∧ (((AsyncTcpServer.mk "0.0.0.0" 8080
            [(some loopbackConn, 359983), (some minHashConn, -775808)]).GetConnection 359983).1
            = none
          ↔ ∀ e ∈ (AsyncTcpServer.mk "0.0.0.0" 8080
              [(some loopbackConn, 359983), (some minHashConn, -775808)]).allSockets,
              e.2 ≠ 359983)
      ∧ (∀ c, ((AsyncTcpServer.mk "0.0.0.0" 8080
            [(some loopbackConn, 359983), (some minHashConn, -775808)]).GetConnection 359983).1
            = some c
          → (some c, (359983 : Int)) ∈ (AsyncTcpServer.mk "0.0.0.0" 8080
              [(some loopbackConn, 359983), (some minHashConn, -775808)]).allSockets) :=
  ⟨by simp, GetConnection_spec _ 359983 (by simp)⟩

/-- C4. For every server state, connection c and sequence of read results in
which some read fails (in particular one that ends in a read error),
`handleConnection(c)` returns, having closed c once; afterwards c is not a key
of the registry, and if no other registered connection has the identifier of
c, `GetConnection(GetSocketID(c))` returns nil whatever the iteration order.
The second critical section removes c from whatever registry state it finds. -/
theorem handleConnection_deregisters (server : AsyncTcpServer) (c : Conn)
    (reads : List ReadResult) (herr : ∃ r ∈ reads, r.2 ≠ none) :
    ∃ after : AsyncTcpServer,
      server.handleConnection (some c) reads = Outcome.ret (after, [Event.close c])
      ∧ some c ∉ mapKeys after.allSockets
      ∧ ((∀ e ∈ server.allSockets, e.1 ≠ some c → e.2 ≠ GetSocketID (some c))
          → ∀ order : ConnMap, order.Perm after.allSockets
            → (AsyncTcpServer.GetConnection { after with allSockets := order }
                (GetSocketID (some c))).1 = none)
      ∧ (∀ mid : AsyncTcpServer,
          some c ∉ mapKeys (AsyncTcpServer.handleConnection.deregister mid c).allSockets) := by
  obtain ⟨msgs, hmsgs⟩ := readLoop_isSome reads herr
  have hkey : ∀ m : ConnMap, some c ∉ mapKeys (mapDelete m (some c)) := by
    intro m hmem
    simp only [mapKeys, List.mem_map] at hmem
    obtain ⟨e, he, hk⟩ := hmem
    exact ((mem_mapDelete m (some c) e).mp he).2 hk
  refine ⟨AsyncTcpServer.handleConnection.deregister
      (AsyncTcpServer.handleConnection.register server c) c, ?_, ?_, ?_, ?_⟩
  · simp [AsyncTcpServer.handleConnection, AsyncTcpServer.handleConnection.finish, hmsgs]
  · exact hkey _
  · intro hother order hperm
    apply loop_none_of_no_match
    intro e he
    have he2 : e ∈ mapDelete (mapAssign server.allSockets (some c) (GetSocketID (some c)))
        (some c) := hperm.mem_iff.mp he
    rw [mapDelete_mapAssign] at he2
    obtain ⟨hmem, hne⟩ := (mem_mapDelete _ _ _).mp he2
    exact hother e hmem hne
  · intro mid
    exact hkey _

/-- C4 (witness): a server that already tracks another connection handles the
loopback connection, which delivers the five bytes of "hello" and then fails. -/
theorem handleConnection_deregisters_witness :
    (∃ r ∈ [(([104, 101, 108, 108, 111] : Bytes), (none : error)),
            (([] : Bytes), some (GoError.lib "EOF"))], r.2 ≠ none)
      ∧ ∃ after : AsyncTcpServer,
        (AsyncTcpServer.mk "0.0.0.0" 8080 [(some minHashConn, -775808)]).handleConnection
            (some loopbackConn)
            [(([104, 101, 108, 108, 111] : Bytes), (none : error)),
             (([] : Bytes), some (GoError.lib "EOF"))]
          = Outcome.ret (after, [Event.close loopbackConn])
        ∧ some loopbackConn ∉ mapKeys after.allSockets
        ∧ ((∀ e ∈ (AsyncTcpServer.mk "0.0.0.0" 8080 [(some minHashConn, -775808)]).allSockets,
              e.1 ≠ some loopbackConn → e.2 ≠ GetSocketID (some loopbackConn))
            → ∀ order : ConnMap, order.Perm after.allSockets
              → (AsyncTcpServer.GetConnection { after with allSockets := order }
                  (GetSocketID (some loopbackConn))).1 = none)
        ∧ (∀ mid : AsyncTcpServer, some loopbackConn
            ∉ mapKeys (AsyncTcpServer.handleConnection.deregister mid loopbackConn).allSockets) :=
  ⟨⟨(([] : Bytes), some (GoError.lib "EOF")), by simp, by simp⟩,
   handleConnection_deregisters _ loopbackConn _
     ⟨(([] : Bytes), some (GoError.lib "EOF")), by simp, by simp⟩⟩

/-- C5. For every registry whose keys are non-nil handles, `Close()` returns,
invokes Close once per entry, on every registered handle and on nothing else,
and leaves the registry empty: `GetConnections()` then has no entries and
`GetConnection(id)` returns nil for every id; Address and Port are unchanged. -/
theorem Close_closes_all_and_clears (server : AsyncTcpServer)
    (hkeys : ∀ e ∈ server.allSockets, e.1 ≠ none) :
    ∃ (after : AsyncTcpServer) (evs : List Event),
      server.Close = Outcome.ret (after, evs)
      ∧ (∀ ev ∈ evs, ∃ c, ev = Event.close c ∧ some c ∈ mapKeys server.allSockets)
      ∧ (∀ c, some c ∈ mapKeys server.allSockets → Event.close c ∈ evs)
      ∧ evs.length = server.allSockets.length
      ∧ after.allSockets = []
      ∧ after.GetConnections.1 = []
      ∧ (∀ id, (after.GetConnection id).1 = none)
      ∧ after.Address = server.Address
      ∧ after.Port = server.Port := by
  obtain ⟨evs, hevs, hsub, hsup, hlen⟩ := closeLoop_ret server.allSockets hkeys
  refine ⟨{ server with allSockets := [] }, evs, ?_, hsub, hsup, hlen, rfl, rfl, ?_, rfl, rfl⟩
  · simp [AsyncTcpServer.Close, hevs]
  · intro id
    rfl

/-- C5 (witness): closing a server that tracks two connections. -/
theorem Close_closes_all_and_clears_witness :
    (∀ e ∈ (AsyncTcpServer.mk "0.0.0.0" 8080
        [(some loopbackConn, 359983), (some minHashConn, -775808)]).allSockets, e.1 ≠ none)
      ∧ ∃ (after : AsyncTcpServer) (evs : List Event),
        (AsyncTcpServer.mk "0.0.0.0" 8080
            [(some loopbackConn, 359983), (some minHashConn, -775808)]).Close
          = Outcome.ret (after, evs)
        ∧ (∀ ev ∈ evs, ∃ c, ev = Event.close c ∧ some c ∈ mapKeys (AsyncTcpServer.mk "0.0.0.0" 8080
            [(some loopbackConn, 359983), (some minHashConn, -775808)]).allSockets)
        ∧ (∀ c, some c ∈ mapKeys (AsyncTcpServer.mk "0.0.0.0" 8080
            [(some loopbackConn, 359983), (some minHashConn, -775808)]).allSockets
            → Event.close c ∈ evs)
        ∧ evs.length = (AsyncTcpServer.mk "0.0.0.0" 8080
            [(some loopbackConn, 359983), (some minHashConn, -775808)]).allSockets.length
        ∧ after.allSockets = []
        ∧ after.GetConnections.1 = []
        ∧ (∀ id, (after.GetConnection id).1 = none)
        ∧ after.Address = "0.0.0.0"
        ∧ after.Port = 8080 :=
  ⟨by simp, Close_closes_all_and_clears _ (by simp)⟩

/-! ## Client and JSON helper: claims -/

/-- C6. For every client without a stored handle whose Address is not numeric,
if the hostname lookup returns an error or no address, `Connect()` returns the
non-nil error built from "DNS resolution error", makes no dial attempt, and the
client is as before: `GetConnection()` is still nil. -/
theorem Connect_resolution_failure (client : AsyncTcpClient) (env : Env)
    (hconn : client.conn = none)
    (hname : env.parseIP client.Address = false)
    (hfail : (env.lookupHost client.Address).2 ≠ none
      ∨ (env.lookupHost client.Address).1 = []) :
    (client.Connect env).2.1
        = some (Errorf "DNS resolution error: %w" (env.lookupHost client.Address).2)
      ∧ dialsOf (client.Connect env).2.2 = []
      ∧ (client.Connect env).1.GetConnection = none
      ∧ (client.Connect env).1 = client := by
  unfold AsyncTcpClient.Connect
  simp only [hname, if_true]
  rcases hlk : env.lookupHost client.Address with ⟨ips, err⟩
  rw [hlk] at hfail
  cases err with
  | some e => simp [dialsOf, AsyncTcpClient.GetConnection, hconn]
  | none =>
    cases ips with
    | nil => simp [dialsOf, AsyncTcpClient.GetConnection, hconn]
    | cons ip rest => simp at hfail

/-- C6 (witness): a fresh client for a host name that does not resolve. -/
theorem Connect_resolution_failure_witness :
    ((NewAsyncTcpClient "nowhere.invalid" 8080).Connect exampleEnv).2.1
        = some (Errorf "DNS resolution error: %w" (some (GoError.lib "no such host")))
      ∧ dialsOf ((NewAsyncTcpClient "nowhere.invalid" 8080).Connect exampleEnv).2.2 = []
      ∧ ((NewAsyncTcpClient "nowhere.invalid" 8080).Connect exampleEnv).1.GetConnection = none
      ∧ ((NewAsyncTcpClient "nowhere.invalid" 8080).Connect exampleEnv).1
          = NewAsyncTcpClient "nowhere.invalid" 8080 :=
  Connect_resolution_failure (NewAsyncTcpClient "nowhere.invalid" 8080) exampleEnv rfl
    (by decide) (Or.inl (by decide))

/-- C7. For every client: if Address is not numeric and the lookup succeeds
with first address ip, `Connect()` sets Address to ip, looks up the old Address
once and dials exactly ip:Port; if Address is numeric, `Connect()` makes no
lookup, keeps Address and dials Address:Port.  In both cases, when the dial
succeeds its handle is stored and nil is returned, and when the dial fails the
stored handle is left as it was and the non-nil error built from "error
connecting to server" and the dial error is returned. -/
theorem Connect_resolves_and_dials (client : AsyncTcpClient) (env : Env) :
    (env.parseIP client.Address = false →
      ∀ ip rest, env.lookupHost client.Address = (ip :: rest, none) →
        (client.Connect env).1.Address = ip
        ∧ lookupsOf (client.Connect env).2.2 = [client.Address]
        ∧ dialsOf (client.Connect env).2.2 = [hostPort ip client.Port]
        ∧ ((env.dial "tcp" (hostPort ip client.Port)).2 = none →
            (client.Connect env).1.conn = (env.dial "tcp" (hostPort ip client.Port)).1
            ∧ (client.Connect env).2.1 = none)
        ∧ (∀ e, (env.dial "tcp" (hostPort ip client.Port)).2 = some e →
            (client.Connect env).1.conn = client.conn
            ∧ (client.Connect env).2.1
                = some (Errorf "error connecting to server: %w" (some e))))
    ∧ (env.parseIP client.Address = true →
        (client.Connect env).1.Address = client.Address
        ∧ lookupsOf (client.Connect env).2.2 = []
        ∧ dialsOf (client.Connect env).2.2 = [hostPort client.Address client.Port]
        ∧ ((env.dial "tcp" (hostPort client.Address client.Port)).2 = none →
            (client.Connect env).1.conn
                = (env.dial "tcp" (hostPort client.Address client.Port)).1
            ∧ (client.Connect env).2.1 = none)
        ∧ (∀ e, (env.dial "tcp" (hostPort client.Address client.Port)).2 = some e →
            (client.Connect env).1.conn = client.conn
            ∧ (client.Connect env).2.1
                = some (Errorf "error connecting to server: %w" (some e)))) := by
  constructor
  · intro hname ip rest hlk
    unfold AsyncTcpClient.Connect
    simp only [hname, if_true, hlk]
    unfold AsyncTcpClient.Connect.dialStep
    rcases hd : env.dial "tcp" (hostPort ip client.Port) with ⟨conn, err⟩
    cases err <;> simp [hd, lookupsOf, dialsOf]
  · intro hnum
    unfold AsyncTcpClient.Connect
    simp only [hnum, Bool.true_eq_false, if_false]
    unfold AsyncTcpClient.Connect.dialStep
    rcases hd : env.dial "tcp" (hostPort client.Address client.Port) with ⟨conn, err⟩
    cases err <;> simp [hd, lookupsOf, dialsOf]

/-- C7 (witness): a client for `example.com`, which resolves and then refuses
the connection, and a client for the numeric loopback address, which connects. -/
theorem Connect_resolves_and_dials_witness :
    (((NewAsyncTcpClient "example.com" 8080).Connect exampleEnv).1.Address = "93.184.216.34"
      ∧ lookupsOf ((NewAsyncTcpClient "example.com" 8080).Connect exampleEnv).2.2
          = ["example.com"]
      ∧ dialsOf ((NewAsyncTcpClient "example.com" 8080).Connect exampleEnv).2.2
          = [hostPort "93.184.216.34" 8080]
      ∧ ((NewAsyncTcpClient "example.com" 8080).Connect exampleEnv).1.conn = none
      ∧ ((NewAsyncTcpClient "example.com" 8080).Connect exampleEnv).2.1
          = some (Errorf "error connecting to server: %w"
              (some (GoError.lib "connection refused"))))
    ∧ (((NewAsyncTcpClient "127.0.0.1" 8080).Connect exampleEnv).1.Address = "127.0.0.1"
      ∧ lookupsOf ((NewAsyncTcpClient "127.0.0.1" 8080).Connect exampleEnv).2.2 = []
      ∧ dialsOf ((NewAsyncTcpClient "127.0.0.1" 8080).Connect exampleEnv).2.2
          = [hostPort "127.0.0.1" 8080]
      ∧ ((NewAsyncTcpClient "127.0.0.1" 8080).Connect exampleEnv).1.conn = some clientSideConn
      ∧ ((NewAsyncTcpClient "127.0.0.1" 8080).Connect exampleEnv).2.1 = none) :=
  have hA := (Connect_resolves_and_dials (NewAsyncTcpClient "example.com" 8080) exampleEnv).1
    (by decide) "93.184.216.34" [] (by decide)
  have hB := (Connect_resolves_and_dials (NewAsyncTcpClient "127.0.0.1" 8080) exampleEnv).2
    (by decide)
  ⟨⟨hA.1, hA.2.1, hA.2.2.1,
      (hA.2.2.2.2 (GoError.lib "connection refused") (by decide)).1,
      (hA.2.2.2.2 (GoError.lib "connection refused") (by decide)).2⟩,
   ⟨hB.1, hB.2.1, hB.2.2.1, (hB.2.2.2.1 (by decide)).1, (hB.2.2.2.1 (by decide)).2⟩⟩

/-- C8 (code evaluated at the failing input). On a client that has no stored
handle, `Send` and `Receive` do not return an error value: both panic on the
nil handle. -/
theorem Send_Receive_without_handle_panic (address : String) (port : Int) (data : Bytes)
    (env : Env) :
    (NewAsyncTcpClient address port).Send data env = Outcome.panic
      ∧ (NewAsyncTcpClient address port).Receive env = Outcome.panic
      ∧ (AsyncTcpClient.mk address port none).Send data env = Outcome.panic
      ∧ (AsyncTcpClient.mk address port none).Receive env = Outcome.panic :=
  ⟨rfl, rfl, rfl, rfl⟩

/-- C9. For every connection and value, `SendJSON` returns; when serialization
fails it returns the non-nil error built from "error marshaling JSON" and makes
no library call at all; when serialization succeeds it makes exactly one call,
a write of exactly the serialized bytes to the connection, and returns the
error of that write; so it writes if and only if serialization succeeds. -/
theorem SendJSON_writes_iff_marshals {α : Type} (marshal : α → Bytes × error) (env : Env)
    (c : Conn) (data : α) :
    (∀ e, (marshal data).2 = some e →
        SendJSON marshal env (some c) data
          = Outcome.ret (some (Errorf "error marshaling JSON: %w" (some e)), []))
      ∧ ((marshal data).2 = none →
          SendJSON marshal env (some c) data
            = Outcome.ret ((env.write c (marshal data).1).2,
                [Event.write c (marshal data).1]))
      ∧ (∃ r evs, SendJSON marshal env (some c) data = Outcome.ret (r, evs)
          ∧ (writesOf evs ≠ [] ↔ (marshal data).2 = none)
          ∧ (writesOf evs).length ≤ 1) := by
  unfold SendJSON
  rcases hm : marshal data with ⟨jsonBytes, err⟩
  cases err with
  | none =>
    refine ⟨by simp, by simp, ?_⟩
    exact ⟨_, _, rfl, by simp [writesOf], by simp [writesOf]⟩
  | some e =>
    refine ⟨by simp, by simp, ?_⟩
    exact ⟨_, _, rfl, by simp [writesOf], by simp [writesOf]⟩

/-- C9 (witness): a value that cannot be serialized, and one that serializes
to the two bytes of an empty JSON object. -/
theorem SendJSON_writes_iff_marshals_witness :
    SendJSON exampleMarshal exampleEnv (some clientSideConn) none
        = Outcome.ret (some (Errorf "error marshaling JSON: %w"
            (some (GoError.lib "json: unsupported type"))), [])
      ∧ SendJSON exampleMarshal exampleEnv (some clientSideConn) (some [123, 125])
        = Outcome.ret (none, [Event.write clientSideConn [123, 125]]) :=
  ⟨(SendJSON_writes_iff_marshals exampleMarshal exampleEnv clientSideConn none).1
      (GoError.lib "json: unsupported type") rfl,
   (SendJSON_writes_iff_marshals exampleMarshal exampleEnv clientSideConn
      (some [123, 125])).2.1 rfl⟩

/-! ## Executions: lemmas -/

theorem clientClose_effect (client : AsyncTcpClient) :
    client.Close.1 = client ∧ closedBy client.Close.2 = client.conn.toList := by
  unfold AsyncTcpClient.Close
  cases client.conn <;> simp [closedBy]

theorem serverClose_of_empty (server : AsyncTcpServer) (h : server.allSockets = []) :
    server.Close = Outcome.ret ({ server with allSockets := [] }, []) := by
  simp [AsyncTcpServer.Close, h, AsyncTcpServer.Close.loop]

theorem run_with_idle_serverClose (ops : List Op) (sys : System)
    (hidle : ∀ pre post, ops = pre ++ Op.serverClose :: post →
      ∀ mid, System.run sys pre = Outcome.ret mid → mid.server.allSockets = []) :
    ∃ final, System.run sys ops = Outcome.ret final
      ∧ final.client = sys.client
      ∧ final.closed = sys.closed ++ closesOf sys.client.conn ops := by
  induction ops generalizing sys with
  | nil => exact ⟨sys, rfl, rfl, by simp [closesOf]⟩
  | cons op rest ih =>
    have hrest : ∀ next, sys.step op = Outcome.ret next →
        ∀ pre post, rest = pre ++ Op.serverClose :: post →
          ∀ mid, System.run next pre = Outcome.ret mid → mid.server.allSockets = [] := by
      intro next hstep pre post hsplit mid hrun
      refine hidle (op :: pre) post (by simp [hsplit]) mid ?_
      simp [System.run, hstep, hrun]
    cases op with
    | handlerStart c =>
      obtain ⟨final, hrun, hcl, hlog⟩ := ih
        { sys with server := AsyncTcpServer.handleConnection.register sys.server c }
        (hrest _ rfl)
      exact ⟨final, by simp [System.run, System.step, hrun], hcl, by simpa [closesOf] using hlog⟩
    | handlerExit c =>
      obtain ⟨final, hrun, hcl, hlog⟩ := ih
        { sys with
          server := (AsyncTcpServer.handleConnection.finish sys.server c).1
          closed := sys.closed
            ++ closedBy (AsyncTcpServer.handleConnection.finish sys.server c).2 }
        (hrest _ rfl)
      refine ⟨final, by simp [System.run, System.step, hrun], hcl, ?_⟩
      simpa [closesOf, closedBy, AsyncTcpServer.handleConnection.finish] using hlog
    | serverClose =>
      have hempty : sys.server.allSockets = [] := hidle [] rest rfl sys rfl
      have hclose := serverClose_of_empty sys.server hempty
      have hstep : sys.step Op.serverClose
          = Outcome.ret { sys with
              server := { sys.server with allSockets := [] }
              closed := sys.closed ++ closedBy [] } := by
        simp [System.step, hclose]
      obtain ⟨final, hrun, hcl, hlog⟩ := ih _ (hrest _ hstep)
      refine ⟨final, by simp [System.run, hstep, hrun], hcl, ?_⟩
      simpa [closesOf, closedBy] using hlog
    | clientClose =>
      obtain ⟨final, hrun, hcl, hlog⟩ := ih
        { sys with
          client := sys.client.Close.1
          closed := sys.closed ++ closedBy sys.client.Close.2 }
        (hrest _ rfl)
      have heff := clientClose_effect sys.client
      refine ⟨final, by simp [System.run, System.step, hrun], ?_, ?_⟩
      · simpa [heff.1] using hcl
      · simp only [heff.1, heff.2] at hlog
        simpa [closesOf] using hlog

theorem idle_of_serverCloseFindsEmpty (ops : List Op) (sys : System)
    (h : serverCloseFindsEmpty sys ops = true) :
    ∀ pre post, ops = pre ++ Op.serverClose :: post →
      ∀ mid, System.run sys pre = Outcome.ret mid → mid.server.allSockets = [] := by
  induction ops generalizing sys with
  | nil =>
    intro pre post hsplit
    simp at hsplit
  | cons op rest ih =>
    intro pre post hsplit mid hrun
    simp only [serverCloseFindsEmpty, Bool.and_eq_true, Bool.or_eq_true,
      decide_eq_true_eq] at h
    cases pre with
    | nil =>
      simp only [List.nil_append, List.cons.injEq] at hsplit
      simp only [System.run, Outcome.ret.injEq] at hrun
      subst hrun
      rcases h.1 with hne | hempty
      · exact absurd hsplit.1 hne
      · exact hempty
    | cons p pre =>
      simp only [List.cons_append, List.cons.injEq] at hsplit
      obtain ⟨hp, hsplit⟩ := hsplit
      subst hp
      simp only [System.run] at hrun
      cases hstep : sys.step op with
      | ret next =>
        rw [hstep] at hrun
        have hnext : serverCloseFindsEmpty next rest = true := by
          have := h.2
          rw [hstep] at this
          exact this
        exact ih next hnext pre post hsplit mid hrun
      | panic => rw [hstep] at hrun; cases hrun
      | blocked => rw [hstep] at hrun; cases hrun

theorem mem_closesOf (stored : NetConn) (ops : List Op) (x : Conn)
    (h : x ∈ closesOf stored ops) :
    x ∈ exitsOf ops ∨ (stored = some x ∧ Op.clientClose ∈ ops) := by
  induction ops with
  | nil => simp [closesOf] at h
  | cons op rest ih =>
    cases op with
    | handlerStart c =>
      rcases ih (by simpa [closesOf] using h) with h1 | ⟨h1, h2⟩
      · exact Or.inl (by simpa [exitsOf] using h1)
      · exact Or.inr ⟨h1, List.mem_cons_of_mem _ h2⟩
    | handlerExit c =>
      simp only [closesOf, List.mem_cons] at h
      rcases h with rfl | h
      · exact Or.inl (by simp [exitsOf])
      · rcases ih h with h1 | ⟨h1, h2⟩
        · exact Or.inl (by
            simp only [exitsOf, List.filterMap_cons, List.mem_cons] at h1 ⊢
            exact Or.inr h1)
        · exact Or.inr ⟨h1, List.mem_cons_of_mem _ h2⟩
    | serverClose =>
      rcases ih (by simpa [closesOf] using h) with h1 | ⟨h1, h2⟩
      · exact Or.inl (by simpa [exitsOf] using h1)
      · exact Or.inr ⟨h1, List.mem_cons_of_mem _ h2⟩
    | clientClose =>
      simp only [closesOf, List.mem_append] at h
      rcases h with h | h
      · refine Or.inr ⟨?_, List.mem_cons_self _ _⟩
        cases stored with
        | none => simp at h
        | some d =>
          have : x = d := by simpa using h
          rw [this]
      · rcases ih h with h1 | ⟨h1, h2⟩
        · exact Or.inl (by simpa [exitsOf] using h1)
        · exact Or.inr ⟨h1, List.mem_cons_of_mem _ h2⟩

theorem closesOf_nodup (stored : NetConn) (ops : List Op)
    (hclient : ops.count Op.clientClose ≤ 1)
    (hexits : (exitsOf ops).Nodup)
    (hdisj : ∀ c, stored = some c → c ∉ exitsOf ops) :
    (closesOf stored ops).Nodup := by
  induction ops with
  | nil => simp [closesOf]
  | cons op rest ih =>
    cases op with
    | handlerStart c =>
      have h1 : rest.count Op.clientClose ≤ 1 := by simpa [List.count_cons] using hclient
      have h2 : (exitsOf rest).Nodup := by simpa [exitsOf] using hexits
      have h3 : ∀ c, stored = some c → c ∉ exitsOf rest := by
        intro d hd
        simpa [exitsOf] using hdisj d hd
      simpa [closesOf] using ih h1 h2 h3
    | serverClose =>
      have h1 : rest.count Op.clientClose ≤ 1 := by simpa [List.count_cons] using hclient
      have h2 : (exitsOf rest).Nodup := by simpa [exitsOf] using hexits
      have h3 : ∀ c, stored = some c → c ∉ exitsOf rest := by
        intro d hd
        simpa [exitsOf] using hdisj d hd
      simpa [closesOf] using ih h1 h2 h3
    | handlerExit c =>
      have h1 : rest.count Op.clientClose ≤ 1 := by simpa [List.count_cons] using hclient
      have hex : c ∉ exitsOf rest ∧ (exitsOf rest).Nodup := by
        have : (c :: exitsOf rest).Nodup := by simpa [exitsOf] using hexits
        exact List.nodup_cons.mp this
      have h3 : ∀ d, stored = some d → d ∉ exitsOf rest := by
        intro d hd hmem
        exact hdisj d hd (by
          simp only [exitsOf, List.filterMap_cons, List.mem_cons]
          exact Or.inr hmem)
      have hnot : c ∉ closesOf stored rest := by
        intro hmem
        rcases mem_closesOf stored rest c hmem with h | ⟨h, _⟩
        · exact hex.1 h
        · exact hdisj c h (by simp [exitsOf])
      simp only [closesOf]
      exact List.nodup_cons.mpr ⟨hnot, ih h1 hex.2 h3⟩
    | clientClose =>
      have hcount : rest.count Op.clientClose = 0 := by
        simp [List.count_cons] at hclient
        exact hclient
      have hnone : Op.clientClose ∉ rest := List.count_eq_zero.mp hcount
      have h2 : (exitsOf rest).Nodup := by simpa [exitsOf] using hexits
      have h3 : ∀ c, stored = some c → c ∉ exitsOf rest := by
        intro d hd
        simpa [exitsOf] using hdisj d hd
      have hrest : (closesOf stored rest).Nodup := ih (by omega) h2 h3
      simp only [closesOf]
      cases stored with
      | none => simpa using hrest
      | some d =>
        have hd : d ∉ closesOf (some d) rest := by
          intro hmem
          rcases mem_closesOf (some d) rest d hmem with h | ⟨_, h⟩
          · exact h3 d rfl h
          · exact hnone h
        simpa using List.nodup_cons.mpr ⟨hd, hrest⟩

/-! ## Executions: claims -/

/-- C10 (counterexample). Two executions in which Close is invoked twice on
one handle: the handling task of the loopback connection registers it,
`Server.Close()` closes it, and the task closes it again when it exits; and a
connected client calls `Close()` twice. -/
theorem double_close_executions :
    System.run ⟨NewAsyncTcpServer "0.0.0.0" 8080, NewAsyncTcpClient "127.0.0.1" 8080, []⟩
        [Op.handlerStart loopbackConn, Op.serverClose, Op.handlerExit loopbackConn]
      = Outcome.ret ⟨NewAsyncTcpServer "0.0.0.0" 8080, NewAsyncTcpClient "127.0.0.1" 8080,
          [loopbackConn, loopbackConn]⟩
    ∧ List.count loopbackConn [loopbackConn, loopbackConn] = 2
    ∧ System.run ⟨NewAsyncTcpServer "0.0.0.0" 8080,
          ((NewAsyncTcpClient "127.0.0.1" 8080).Connect exampleEnv).1, []⟩
        [Op.clientClose, Op.clientClose]
      = Outcome.ret ⟨NewAsyncTcpServer "0.0.0.0" 8080,
          ⟨"127.0.0.1", 8080, some clientSideConn⟩, [clientSideConn, clientSideConn]⟩
    ∧ List.count clientSideConn [clientSideConn, clientSideConn] = 2 := by
  refine ⟨?_, by decide, ?_, by decide⟩
  · simp [System.run, System.step, AsyncTcpServer.handleConnection.register,
      AsyncTcpServer.handleConnection.finish, AsyncTcpServer.handleConnection.deregister,
      AsyncTcpServer.Close, AsyncTcpServer.Close.loop, NewAsyncTcpServer, mapAssign, mapDelete,
      closedBy]
  · decide

/-- C10 (amended). In every execution that starts with an empty close log and
consists of handling-task steps, calls of `Server.Close()` each made while no
connection is registered, and at most one `Client.Close()`, where each
connection has at most one handling-task exit and the client's stored handle
is not one of those connections, every step returns and no handle has Close
invoked on it more than once. -/
theorem close_at_most_once (init : System) (ops : List Op)
    (hlog : init.closed = [])
    (hidle : ∀ pre post, ops = pre ++ Op.serverClose :: post →
      ∀ mid, System.run init pre = Outcome.ret mid → mid.server.allSockets = [])
    (hclient : ops.count Op.clientClose ≤ 1)
    (hexits : (exitsOf ops).Nodup)
    (hdisj : ∀ c, init.client.conn = some c → c ∉ exitsOf ops) :
    ∃ final, System.run init ops = Outcome.ret final
      ∧ ∀ c, final.closed.count c ≤ 1 := by
  obtain ⟨final, hrun, _, hclosed⟩ := run_with_idle_serverClose ops init hidle
  refine ⟨final, hrun, ?_⟩
  have hnodup : final.closed.Nodup := by
    rw [hclosed, hlog, List.nil_append]
    exact closesOf_nodup init.client.conn ops hclient hexits hdisj
  exact fun c => List.nodup_iff_count_le_one.mp hnodup c

/-- C10 (witness of the amended statement): `Server.Close()` before any
connection is accepted, two handling tasks that run to their exit,
interleaved, one `Close()` of the connected client, and `Server.Close()` again
once both tasks have deregistered. -/
theorem close_at_most_once_witness :
    ∃ final,
      System.run ⟨NewAsyncTcpServer "0.0.0.0" 8080,
          ⟨"127.0.0.1", 8080, some clientSideConn⟩, []⟩
        [Op.serverClose, Op.handlerStart loopbackConn, Op.handlerStart minHashConn,
          Op.clientClose, Op.handlerExit loopbackConn, Op.handlerExit minHashConn,
          Op.serverClose]
        = Outcome.ret final
      ∧ ∀ c, final.closed.count c ≤ 1 :=
  close_at_most_once
    ⟨NewAsyncTcpServer "0.0.0.0" 8080, ⟨"127.0.0.1", 8080, some clientSideConn⟩, []⟩
    [Op.serverClose, Op.handlerStart loopbackConn, Op.handlerStart minHashConn,
      Op.clientClose, Op.handlerExit loopbackConn, Op.handlerExit minHashConn,
      Op.serverClose]
    rfl (idle_of_serverCloseFindsEmpty _ _ (by decide)) (by decide) (by decide) (by decide)

end networking
